import Mathlib

/-
Verification of the interactive-debug-console-overlay library.

The development shallowly embeds the log capture-and-distribution pipeline
(src/storage/log-store.ts, src/interceptors/console-interceptor.ts,
src/interceptors/error-capturer.ts, src/ui/overlay-renderer.ts,
src/core/debug-overlay-manager.ts) as executable Lean definitions and
proves the specified properties about them.

Modelling conventions:
- JavaScript numbers that the code only compares and assigns (maxLogs,
  timestamps) are modelled as Int.
- JavaScript values appearing as console-call arguments are modelled by the
  inductive LogArg, mirroring exactly the case split that
  LogStore._stringifyLogArg performs on them; results of the opaque
  environment primitives (JSON.stringify, Date.now, stack capture, id
  generation) are carried as data.
- Function identity (===) of console methods and of global handlers is
  modelled by the inductive types ConsoleFn and HandlerFn: every distinct
  function object reachable in the claims' scenarios has a distinct
  constructor form.  Function.prototype.bind always returns a fresh object,
  modelled by the ConsoleFn.bound constructor.
- Listener/callback sets (JS Set of function objects, iterated in insertion
  order) are modelled as lists tagged with a numeric identity.
- Exceptions are modelled with Except / Option String; observable side
  effects (invoking a console-method function object, delivering an entry
  to a callback, rendering) are recorded in an Effect trace.
-/

namespace DebugOverlay

/-- Log severity levels, the closed set of src/types/types.ts LogLevel. -/
inductive LogLevel : Type
  | log
  | info
  | warn
  | error
  | debug
deriving DecidableEq, Repr

/-- A JavaScript value passed as a console-call argument, distinguished
exactly as LogStore._stringifyLogArg distinguishes them.  For plain objects
the result of JSON.stringify is environment data: some s when
JSON.stringify returns s, none when it throws (circular structure); the
typeof string accompanies it for the failure message. -/
inductive LogArg : Type
  | jnull
  | jundefined
  | jstr (s : String)
  | jnum (n : Int)
  | jbool (b : Bool)
  | jfun (name : String)
  | jobj (json : Option String) (typeofName : String)
deriving DecidableEq, Repr

/-- One captured log entry (src/types/types.ts LogEntry). -/
structure LogEntry : Type where
  id : String
  level : LogLevel
  args : List LogArg
  timestamp : Int
  stack : Option String
deriving DecidableEq, Repr

/-- LogStore._stringifyLogArg: string representation of one argument. -/
def stringifyLogArg : LogArg → String
  | LogArg.jnull => "null"
  | LogArg.jundefined => "undefined"
  | LogArg.jstr s => s
  | LogArg.jnum n => toString n
  | LogArg.jbool b => if b then "true" else "false"
  | LogArg.jfun name =>
      "[Function: " ++ (if name.isEmpty then "anonymous" else name) ++ "]"
  | LogArg.jobj (some json) _ => json
  | LogArg.jobj none typeofName => "[Object: " ++ typeofName ++ "]"

/-- The searchable content of an entry: the args' string representations
joined with a single space (searchLogs builds this with map + join). -/
def logContent (e : LogEntry) : String :=
  String.intercalate " " (e.args.map stringifyLogArg)

/-- Substring test on character lists: some suffix of the haystack starts
with the needle.  Models JavaScript String.prototype.includes. -/
def charsContain (needle : List Char) : List Char → Bool
  | [] => needle.isEmpty
  | c :: rest => needle.isPrefixOf (c :: rest) || charsContain needle rest

/-- JavaScript String.prototype.includes. -/
def strContains (haystack needle : String) : Bool :=
  charsContain needle.data haystack.data

/-- JavaScript String.prototype.toLowerCase (character-wise lowering). -/
def toLowerStr (s : String) : String :=
  String.mk (s.data.map Char.toLower)

/-- The test !text.trim(): the trimmed string is empty exactly when every
character is whitespace. -/
def isBlank (s : String) : Bool :=
  s.data.all fun c => c.isWhitespace

/-- Identity of a console-method function object.  native is a method as
installed by the host environment before the interceptor existed; bound f
is the fresh object returned by f.bind(console); wrapper is the closure a
startIntercepting call installs. -/
inductive ConsoleFn : Type
  | native (level : LogLevel)
  | bound (f : ConsoleFn)
  | wrapper (level : LogLevel)
deriving DecidableEq, Repr

/-- The five global console method slots. -/
structure ConsoleSlots : Type where
  log : ConsoleFn
  info : ConsoleFn
  warn : ConsoleFn
  error : ConsoleFn
  debug : ConsoleFn
deriving DecidableEq, Repr

/-- The console state installed by the host environment. -/
def nativeConsole : ConsoleSlots :=
  ⟨ConsoleFn.native LogLevel.log, ConsoleFn.native LogLevel.info,
   ConsoleFn.native LogLevel.warn, ConsoleFn.native LogLevel.error,
   ConsoleFn.native LogLevel.debug⟩

/-- Slot lookup by level. -/
def ConsoleSlots.get (c : ConsoleSlots) : LogLevel → ConsoleFn
  | LogLevel.log => c.log
  | LogLevel.info => c.info
  | LogLevel.warn => c.warn
  | LogLevel.error => c.error
  | LogLevel.debug => c.debug

/-- What a recorded console invocation was for: forwarding an intercepted
or original call with its own arguments, or the error-notice logging that a
catch block around a listener/callback performs. -/
inductive InvokeTag : Type
  | forwardCall (level : LogLevel) (args : List LogArg)
  | errorNotice
deriving DecidableEq, Repr

/-- Observable side effects of the pipeline. -/
inductive Effect : Type
  | consoleInvoke (fn : ConsoleFn) (tag : InvokeTag)
  | cbDelivered (cid : Nat) (entry : LogEntry)
  | cbCaught (cid : Nat)
  | lsDelivered (lid : Nat) (logs : List LogEntry)
  | lsCaught (lid : Nat)
  | rendered (logs : List LogEntry)
deriving DecidableEq, Repr

/-- The listener id an effect concerns, when it is a store-subscriber
delivery or a caught store-subscriber failure. -/
def Effect.listenerId : Effect → Option Nat
  | Effect.lsDelivered lid _ => some lid
  | Effect.lsCaught lid => some lid
  | _ => none

/-- The callback id an effect concerns, when it is an interceptor/capturer
callback delivery or a caught callback failure. -/
def Effect.callbackId : Effect → Option Nat
  | Effect.cbDelivered cid _ => some cid
  | Effect.cbCaught cid => some cid
  | _ => none

/-- Whether an effect invokes a console-method function object. -/
def Effect.isConsoleInvoke : Effect → Bool
  | Effect.consoleInvoke _ _ => true
  | _ => false

/-- Whether an effect forwards a console call (as opposed to error-notice
logging). -/
def Effect.isForwardCall : Effect → Bool
  | Effect.consoleInvoke _ (InvokeTag.forwardCall _ _) => true
  | _ => false

/-- A store subscriber: a function object (identified by lid, since the
source keeps subscribers in a Set of function references) receiving the
full log sequence; its body may throw, modelled by Except. -/
structure Listener : Type where
  lid : Nat
  run : List LogEntry → Except String Unit

/-- An interceptor/capturer callback receiving one entry. -/
structure Callback : Type where
  cid : Nat
  run : LogEntry → Except String Unit

/-- LogStore state (src/storage/log-store.ts): the _logs array, the
_maxLogs bound and the _listeners set in insertion order. -/
structure LogStore : Type where
  logs : List LogEntry
  maxLogs : Int
  listeners : List Listener

/-- LogStore constructor: accepts any maxLogs value without validation
(the TypeScript default argument 1000 is applied by callers that pass
undefined). -/
def LogStore.create (maxLogs : Int) : LogStore :=
  ⟨[], maxLogs, []⟩

/-- LogStore.getAllLogs: a copy of the log array (same sequence). -/
def LogStore.getAllLogs (st : LogStore) : List LogEntry :=
  st.logs

/-- The loop body of LogStore._notifyListeners: one listener invoked inside
try/catch; when it throws, the failure is logged by invoking the function
object the global console.error slot holds at that moment (via). -/
def listenerOutcome (via : ConsoleFn) (logs : List LogEntry) (l : Listener) :
    List Effect :=
  match l.run logs with
  | Except.ok _ => [Effect.lsDelivered l.lid logs]
  | Except.error _ => [Effect.lsCaught l.lid,
      Effect.consoleInvoke via InvokeTag.errorNotice]

/-- The loop body of ConsoleInterceptor._handleConsoleCall and of
ErrorCapturer._notifyCallbacks: one callback invoked inside try/catch, the
failure logged by invoking via. -/
def callbackOutcome (via : ConsoleFn) (entry : LogEntry) (cb : Callback) :
    List Effect :=
  match cb.run entry with
  | Except.ok _ => [Effect.cbDelivered cb.cid entry]
  | Except.error _ => [Effect.cbCaught cb.cid,
      Effect.consoleInvoke via InvokeTag.errorNotice]

/-- LogStore._notifyListeners: calls every listener with getAllLogs(), in
insertion order; a listener that throws is caught and the failure is logged
by calling console.error — whatever function object the global
console.error slot holds at notification time (curError). -/
def LogStore.notifyListeners (curError : ConsoleFn) (st : LogStore) :
    List Effect :=
  st.listeners.flatMap (listenerOutcome curError st.logs)

/-- LogStore.addLog: push the entry; if the length now exceeds _maxLogs,
shift one entry off the front; then notify listeners. -/
def LogStore.addLog (curError : ConsoleFn) (st : LogStore) (e : LogEntry) :
    LogStore × List Effect :=
  let pushed := st.logs ++ [e]
  let newLogs := if st.maxLogs < (pushed.length : Int) then pushed.tail else pushed
  let st2 : LogStore := { st with logs := newLogs }
  (st2, st2.notifyListeners curError)

/-- LogStore.clearLogs: empty the sequence and notify. -/
def LogStore.clearLogs (curError : ConsoleFn) (st : LogStore) :
    LogStore × List Effect :=
  let st2 : LogStore := { st with logs := [] }
  (st2, st2.notifyListeners curError)

/-- LogStore.getLogsByLevels: empty input yields empty; otherwise keep the
entries whose level is in the given collection, preserving order. -/
def LogStore.getLogsByLevels (st : LogStore) (levels : List LogLevel) :
    List LogEntry :=
  if levels.isEmpty then []
  else st.logs.filter fun e => levels.contains e.level

/-- LogStore.getLogsByTimeRange: inclusive bounds on the timestamp. -/
def LogStore.getLogsByTimeRange (st : LogStore) (startTime endTime : Int) :
    List LogEntry :=
  st.logs.filter fun e => startTime ≤ e.timestamp && e.timestamp ≤ endTime

/-- LogStore.searchLogs: a blank (whitespace-only) search text returns all
logs; otherwise filter by substring containment of the (optionally
lowercased) search term in the (optionally lowercased) joined content. -/
def LogStore.searchLogs (st : LogStore) (searchText : String)
    (caseSensitive : Bool) : List LogEntry :=
  if isBlank searchText then st.getAllLogs
  else
    let searchTerm := if caseSensitive then searchText else toLowerStr searchText
    st.logs.filter fun e =>
      let content := if caseSensitive then logContent e else toLowerStr (logContent e)
      strContains content searchTerm

/-- LogStore.getRecentLogs: slice(-count) for positive count, empty
otherwise. -/
def LogStore.getRecentLogs (st : LogStore) (count : Int) : List LogEntry :=
  if count ≤ 0 then []
  else st.logs.drop (st.logs.length - count.toNat)

/-- LogStore.getLogCount. -/
def LogStore.getLogCount (st : LogStore) : Nat :=
  st.logs.length

/-- Per-level counts plus total (src getStatistics shape). -/
structure Statistics : Type where
  log : Nat
  info : Nat
  warn : Nat
  error : Nat
  debug : Nat
  total : Nat
deriving DecidableEq, Repr

/-- LogStore.getStatistics: counts recomputed over the current buffer. -/
def LogStore.getStatistics (st : LogStore) : Statistics :=
  ⟨st.logs.countP (fun e => e.level = LogLevel.log),
   st.logs.countP (fun e => e.level = LogLevel.info),
   st.logs.countP (fun e => e.level = LogLevel.warn),
   st.logs.countP (fun e => e.level = LogLevel.error),
   st.logs.countP (fun e => e.level = LogLevel.debug),
   st.logs.length⟩

/-- The invalid-argument exception message thrown by setMaxLogs. -/
def setMaxLogsErrorMsg : String := "최대 로그 수는 0보다 커야 합니다."

/-- LogStore.setMaxLogs: throws for n ≤ 0 before touching any state;
otherwise updates the bound, and when the current length exceeds it keeps
slice(-n) and notifies.  The returned store is the post-call state (equal
to the input when the exception was thrown), effects are the notification
effects, and thrown carries the exception if one was raised. -/
def LogStore.setMaxLogs (curError : ConsoleFn) (st : LogStore) (n : Int) :
    LogStore × List Effect × Option String :=
  if n ≤ 0 then (st, [], some setMaxLogsErrorMsg)
  else
    let st1 : LogStore := { st with maxLogs := n }
    if n < (st1.logs.length : Int) then
      let st2 : LogStore := { st1 with logs := st1.logs.drop (st1.logs.length - n.toNat) }
      (st2, st2.notifyListeners curError, none)
    else (st1, [], none)

/-- LogStore.subscribe: Set.add — appends unless the same function object
is already registered. -/
def LogStore.subscribe (st : LogStore) (l : Listener) : LogStore :=
  if st.listeners.any (fun x => x.lid = l.lid) then st
  else { st with listeners := st.listeners ++ [l] }

/-- LogStore.unsubscribe: Set.delete by function identity. -/
def LogStore.unsubscribe (st : LogStore) (lid : Nat) : LogStore :=
  { st with listeners := st.listeners.filter fun x => x.lid ≠ lid }

/-- LogStore.unsubscribeAll. -/
def LogStore.unsubscribeAll (st : LogStore) : LogStore :=
  { st with listeners := [] }

/-- LogStore.destroy: empties the buffer and clears all subscribers. -/
def LogStore.destroy (st : LogStore) : LogStore :=
  { st with logs := [], listeners := [] }

/-- ConsoleInterceptor state (src/interceptors/console-interceptor.ts):
the _originalMethods backup taken in the constructor, the _callbacks set in
insertion order and the _isIntercepting flag. -/
structure ConsoleInterceptor : Type where
  originalMethods : ConsoleSlots
  callbacks : List Callback
  isIntercepting : Bool

/-- ConsoleInterceptor constructor: backs up console.log.bind(console) and
so on for each level — bind returns a fresh function object wrapping the
method currently installed in the global slot. -/
def ConsoleInterceptor.create (console : ConsoleSlots) : ConsoleInterceptor :=
  ⟨⟨ConsoleFn.bound console.log, ConsoleFn.bound console.info,
    ConsoleFn.bound console.warn, ConsoleFn.bound console.error,
    ConsoleFn.bound console.debug⟩, [], false⟩

/-- The five wrapper closures a startIntercepting call installs. -/
def wrapperSlots : ConsoleSlots :=
  ⟨ConsoleFn.wrapper LogLevel.log, ConsoleFn.wrapper LogLevel.info,
   ConsoleFn.wrapper LogLevel.warn, ConsoleFn.wrapper LogLevel.error,
   ConsoleFn.wrapper LogLevel.debug⟩

/-- ConsoleInterceptor.startIntercepting: no-op while active; otherwise
sets the flag and overwrites the five global slots with wrappers. -/
def ConsoleInterceptor.startIntercepting (ci : ConsoleInterceptor)
    (console : ConsoleSlots) : ConsoleInterceptor × ConsoleSlots :=
  if ci.isIntercepting then (ci, console)
  else ({ ci with isIntercepting := true }, wrapperSlots)

/-- ConsoleInterceptor.stopIntercepting: no-op while inactive; otherwise
clears the flag and writes the backed-up _originalMethods back into the
global slots. -/
def ConsoleInterceptor.stopIntercepting (ci : ConsoleInterceptor)
    (console : ConsoleSlots) : ConsoleInterceptor × ConsoleSlots :=
  if !ci.isIntercepting then (ci, console)
  else ({ ci with isIntercepting := false }, ci.originalMethods)

/-- ConsoleInterceptor.addCallback (Set.add semantics). -/
def ConsoleInterceptor.addCallback (ci : ConsoleInterceptor) (cb : Callback) :
    ConsoleInterceptor :=
  if ci.callbacks.any (fun x => x.cid = cb.cid) then ci
  else { ci with callbacks := ci.callbacks ++ [cb] }

/-- ConsoleInterceptor.removeAllCallbacks. -/
def ConsoleInterceptor.removeAllCallbacks (ci : ConsoleInterceptor) :
    ConsoleInterceptor :=
  { ci with callbacks := [] }

/-- ConsoleInterceptor.destroy: stopIntercepting then removeAllCallbacks. -/
def ConsoleInterceptor.destroy (ci : ConsoleInterceptor)
    (console : ConsoleSlots) : ConsoleInterceptor × ConsoleSlots :=
  let r := ci.stopIntercepting console
  (r.1.removeAllCallbacks, r.2)

/-- Environment-supplied data consumed when an entry is synthesized: the
generated id (_generateLogId uses Date.now and Math.random), the capture
instant, and what _captureStackTrace produced (none when the runtime gave
no usable stack). -/
structure CaptureEnv : Type where
  freshId : String
  now : Int
  stackTrace : Option String

/-- The LogEntry _handleConsoleCall builds: id and timestamp from the
environment, a copy of the args, and a stack only for error level when the
capture produced one. -/
def mkEntry (env : CaptureEnv) (level : LogLevel) (args : List LogArg) :
    LogEntry :=
  ⟨env.freshId, level, args, env.now,
   if level = LogLevel.error then env.stackTrace else none⟩

/-- ConsoleInterceptor._handleConsoleCall: builds the entry, then invokes
every registered callback with it in insertion order; a callback that
throws is caught and the failure is logged by invoking the backed-up
original error method (this._originalMethods.error). -/
def ConsoleInterceptor.handleConsoleCall (ci : ConsoleInterceptor)
    (env : CaptureEnv) (level : LogLevel) (args : List LogArg) :
    List Effect :=
  ci.callbacks.flatMap (callbackOutcome ci.originalMethods.error (mkEntry env level args))

/-- ConsoleInterceptor.manualLog: exactly _handleConsoleCall — it neither
reads nor writes the global console slots. -/
def ConsoleInterceptor.manualLog (ci : ConsoleInterceptor) (env : CaptureEnv)
    (level : LogLevel) (args : List LogArg) : List Effect :=
  ci.handleConsoleCall env level args

/-- Identity of a global error/rejection handler function. -/
inductive HandlerFn : Type
  | capturerOnError
  | capturerOnRejection
  | preexisting (n : Nat)
deriving DecidableEq, Repr

/-- The window.onerror and window.onunhandledrejection slots (none models
the null handler). -/
structure WindowHandlers : Type where
  onerror : Option HandlerFn
  onunhandledrejection : Option HandlerFn
deriving DecidableEq, Repr

/-- ErrorCapturer state (src/interceptors/error-capturer.ts). -/
structure ErrorCapturer : Type where
  callbacks : List Callback
  originalErrorHandler : Option HandlerFn
  originalRejectionHandler : Option HandlerFn
  isActive : Bool

/-- ErrorCapturer constructor. -/
def ErrorCapturer.create : ErrorCapturer :=
  ⟨[], none, none, false⟩

/-- ErrorCapturer.start: no-op while active; otherwise saves the current
global handlers and installs its own. -/
def ErrorCapturer.start (ec : ErrorCapturer) (w : WindowHandlers) :
    ErrorCapturer × WindowHandlers :=
  if ec.isActive then (ec, w)
  else (⟨ec.callbacks, w.onerror, w.onunhandledrejection, true⟩,
        ⟨some HandlerFn.capturerOnError, some HandlerFn.capturerOnRejection⟩)

/-- ErrorCapturer.stop: no-op while inactive; otherwise writes the saved
handlers back and forgets them. -/
def ErrorCapturer.stop (ec : ErrorCapturer) (w : WindowHandlers) :
    ErrorCapturer × WindowHandlers :=
  if !ec.isActive then (ec, w)
  else (⟨ec.callbacks, none, none, false⟩,
        ⟨ec.originalErrorHandler, ec.originalRejectionHandler⟩)

/-- ErrorCapturer._notifyCallbacks: every callback invoked with the entry,
failures caught and logged by calling console.error — the function object
currently held by the global console.error slot (curError). -/
def ErrorCapturer.notifyCallbacks (curError : ConsoleFn) (ec : ErrorCapturer)
    (entry : LogEntry) : List Effect :=
  ec.callbacks.flatMap (callbackOutcome curError entry)

/-- ErrorCapturer.destroy: stop then clear callbacks. -/
def ErrorCapturer.destroy (ec : ErrorCapturer) (w : WindowHandlers) :
    ErrorCapturer × WindowHandlers :=
  let r := ec.stop w
  ({ r.1 with callbacks := [] }, r.2)

/-- Style theme. -/
inductive Theme : Type
  | light
  | dark
deriving DecidableEq, Repr

/-- Overlay configuration options (src/types/types.ts OverlayOptions).
Only the fields that influence the modelled behavior are carried; the
purely presentational fields (position, width, height, opacity, zIndex)
are omitted from the model. -/
structure OverlayOptions : Type where
  maxLogs : Option Int
  theme : Option Theme
  autoScroll : Option Bool
  enabledLevels : Option (List LogLevel)
deriving DecidableEq, Repr

/-- The empty options object. -/
def OverlayOptions.empty : OverlayOptions :=
  ⟨none, none, none, none⟩

/-- Object spread merge: fields present in the update override. -/
def OverlayOptions.merge (old upd : OverlayOptions) : OverlayOptions :=
  ⟨upd.maxLogs.orElse (fun _ => old.maxLogs),
   upd.theme.orElse (fun _ => old.theme),
   upd.autoScroll.orElse (fun _ => old.autoScroll),
   upd.enabledLevels.orElse (fun _ => old.enabledLevels)⟩

/-- All five levels, the default active filter set. -/
def allLevels : List LogLevel :=
  [LogLevel.log, LogLevel.info, LogLevel.warn, LogLevel.error, LogLevel.debug]

/-- OverlayRenderer state (src/ui/overlay-renderer.ts): whether _elements
is non-null, the visibility flag, the active filter set and the contents of
the visible log list (what renderLogs last put into the DOM list). -/
structure OverlayRenderer : Type where
  created : Bool
  visible : Bool
  activeFilters : List LogLevel
  autoScroll : Bool
  lastRendered : List LogEntry
deriving DecidableEq, Repr

/-- OverlayRenderer constructor: applies the option defaults; the panel is
not yet created and not visible. -/
def OverlayRenderer.create (opts : OverlayOptions) : OverlayRenderer :=
  ⟨false, false, opts.enabledLevels.getD allLevels, opts.autoScroll.getD true, []⟩

/-- OverlayRenderer.createOverlay: idempotent DOM construction. -/
def OverlayRenderer.createOverlay (r : OverlayRenderer) : OverlayRenderer :=
  if r.created then r else { r with created := true }

/-- OverlayRenderer.show: lazily creates, then unhides. -/
def OverlayRenderer.show (r : OverlayRenderer) : OverlayRenderer :=
  let r1 := if !r.created then r.createOverlay else r
  if r1.created && !r1.visible then { r1 with visible := true } else r1

/-- OverlayRenderer.hide. -/
def OverlayRenderer.hide (r : OverlayRenderer) : OverlayRenderer :=
  if r.created && r.visible then { r with visible := false } else r

/-- OverlayRenderer.toggle. -/
def OverlayRenderer.toggle (r : OverlayRenderer) : OverlayRenderer :=
  if r.visible then r.hide else r.show

/-- OverlayRenderer.isVisible. -/
def OverlayRenderer.isVisible (r : OverlayRenderer) : Bool :=
  r.visible

/-- OverlayRenderer.renderLogs: no-op before creation; otherwise replaces
the visible list with the input filtered by the active filter set. -/
def OverlayRenderer.renderLogs (r : OverlayRenderer) (logs : List LogEntry) :
    OverlayRenderer × List Effect :=
  if !r.created then (r, [])
  else
    let filtered := logs.filter fun e => r.activeFilters.contains e.level
    ({ r with lastRendered := filtered }, [Effect.rendered filtered])

/-- OverlayRenderer.destroy: removes the panel and resets visibility. -/
def OverlayRenderer.destroy (r : OverlayRenderer) : OverlayRenderer :=
  { r with created := false, visible := false, lastRendered := [] }

/-- The exception message of DebugOverlayManager._ensureInitialized. -/
def notInitializedMsg : String :=
  "DebugOverlayManager가 초기화되지 않았습니다. init()을 먼저 호출하세요."

/-- DebugOverlayManager instance state: the four nullable component
references, the _isInitialized flag and the stored options. -/
structure Manager : Type where
  consoleInterceptor : Option ConsoleInterceptor
  logStore : Option LogStore
  overlayRenderer : Option OverlayRenderer
  errorCapturer : Option ErrorCapturer
  isInitialized : Bool
  options : OverlayOptions

/-- DebugOverlayManager constructor. -/
def Manager.create : Manager :=
  ⟨none, none, none, none, false, OverlayOptions.empty⟩

/-- The world a manager operates in: the global console slots, the global
error-handler slots, the injected style element (its theme, none when
absent) and the manager instance. -/
structure MWorld : Type where
  console : ConsoleSlots
  handlers : WindowHandlers
  stylesTheme : Option Theme
  mgr : Manager

/-- A pristine page with a freshly constructed manager. -/
def MWorld.fresh : MWorld :=
  ⟨nativeConsole, ⟨none, none⟩, none, Manager.create⟩

/-- DebugOverlayManager._cleanup: destroy and null every component (the
interceptor's destroy restores the console slots it saved, the capturer's
destroy restores the saved global handlers), remove the injected styles and
mark uninitialized.  The stored options are not touched. -/
def Manager.cleanup (w : MWorld) : MWorld :=
  let c1 := match w.mgr.consoleInterceptor with
    | some ci => (ci.destroy w.console).2
    | none => w.console
  let h1 := match w.mgr.errorCapturer with
    | some ec => (ec.destroy w.handlers).2
    | none => w.handlers
  ⟨c1, h1, none, ⟨none, none, none, none, false, w.mgr.options⟩⟩

/-- Which setup step of init raised an exception; the value is the
exception identity that init re-raises after rolling back. -/
inductive InitError : Type
  | injectStylesFailed
  | startInterceptingFailed
  | startCaptureFailed
  | createOverlayFailed
deriving DecidableEq, Repr

/-- Environment fault model for init: whether each effectful setup step
(style injection and the three start/create calls touching the DOM and the
global slots) throws when reached.  A faulting step performs no state
change. -/
structure InitFaults : Type where
  injectStyles : Bool
  startIntercepting : Bool
  startCapture : Bool
  createOverlay : Bool
deriving DecidableEq, Repr

/-- The fault-free environment. -/
def InitFaults.clean : InitFaults :=
  ⟨false, false, false, false⟩

/-- DebugOverlayManager.init: no-op (with a console warning) when already
initialized; otherwise stores the options, injects styles, constructs the
four components, wires them (_setupConnections: its all-components-present
check passes since all four were just constructed; the closures it
registers — interceptor/capturer entry → store append, store logs →
renderer re-render — are interpreted inline by the pipeline operations
below), starts interception and capture, creates the hidden overlay and
marks initialized.  Any exception triggers _cleanup and is re-raised
(returned as some error). -/
def Manager.init (faults : InitFaults) (w : MWorld) (opts : OverlayOptions) :
    MWorld × Option InitError :=
  if w.mgr.isInitialized then (w, none)
  else
    let m1 : Manager := { w.mgr with options := opts }
    let w1 : MWorld := { w with mgr := m1 }
    if faults.injectStyles then (Manager.cleanup w1, some InitError.injectStylesFailed)
    else
    let w2 : MWorld := { w1 with stylesTheme := some (opts.theme.getD Theme.dark) }
    let st := LogStore.create (opts.maxLogs.getD 1000)
    let ci := ConsoleInterceptor.create w2.console
    let ec := ErrorCapturer.create
    let r := OverlayRenderer.create opts
    let m2 : Manager := { m1 with consoleInterceptor := some ci, logStore := some st, overlayRenderer := some r, errorCapturer := some ec }
    let w3 : MWorld := { w2 with mgr := m2 }
    if faults.startIntercepting then (Manager.cleanup w3, some InitError.startInterceptingFailed)
    else
    let ri := ci.startIntercepting w3.console
    let w4 : MWorld := { w3 with console := ri.2, mgr := { m2 with consoleInterceptor := some ri.1 } }
    if faults.startCapture then (Manager.cleanup w4, some InitError.startCaptureFailed)
    else
    let rc := ec.start w4.handlers
    let w5 : MWorld := { w4 with handlers := rc.2, mgr := { w4.mgr with errorCapturer := some rc.1 } }
    if faults.createOverlay then (Manager.cleanup w5, some InitError.createOverlayFailed)
    else
    let w6 : MWorld := { w5 with mgr := { w5.mgr with overlayRenderer := some r.createOverlay, isInitialized := true } }
    (w6, none)

/-- DebugOverlayManager.destroy: no-op when not initialized, otherwise full
cleanup. -/
def Manager.destroy (w : MWorld) : MWorld :=
  if !w.mgr.isInitialized then w else Manager.cleanup w

/-- DebugOverlayManager.open: _ensureInitialized, then renderer.show. -/
def Manager.openOverlay (w : MWorld) : Except String MWorld :=
  if !w.mgr.isInitialized then Except.error notInitializedMsg
  else match w.mgr.overlayRenderer with
    | some r => Except.ok { w with mgr := { w.mgr with overlayRenderer := some r.show } }
    | none => Except.ok w

/-- DebugOverlayManager.close: _ensureInitialized, then renderer.hide. -/
def Manager.closeOverlay (w : MWorld) : Except String MWorld :=
  if !w.mgr.isInitialized then Except.error notInitializedMsg
  else match w.mgr.overlayRenderer with
    | some r => Except.ok { w with mgr := { w.mgr with overlayRenderer := some r.hide } }
    | none => Except.ok w

/-- DebugOverlayManager.toggle: _ensureInitialized, then renderer.toggle. -/
def Manager.toggleOverlay (w : MWorld) : Except String MWorld :=
  if !w.mgr.isInitialized then Except.error notInitializedMsg
  else match w.mgr.overlayRenderer with
    | some r => Except.ok { w with mgr := { w.mgr with overlayRenderer := some r.toggle } }
    | none => Except.ok w

/-- DebugOverlayManager.isVisible: false when uninitialized or without a
renderer, otherwise the renderer's visibility — no exception. -/
def Manager.isVisible (w : MWorld) : Bool :=
  if !w.mgr.isInitialized then false
  else match w.mgr.overlayRenderer with
    | some r => r.isVisible
    | none => false

/-- DebugOverlayManager.addLog: _ensureInitialized, then delegates to the
interceptor's manualLog.  Executing manualLog runs the single callback
_setupConnections registered on the wired interceptor, which appends the
synthesized entry to the log store; the store notification then runs the
single subscriber _setupConnections registered, which re-renders the
overlay (that wiring subscriber was registered first, so its effects
precede those of the store's other subscribers — the manager never exposes
its private store, so in reachable worlds there are none).  The global
console slots are neither read (beyond the error slot captured for the
notification site) nor written. -/
def Manager.addLog (env : CaptureEnv) (w : MWorld) (level : LogLevel)
    (args : List LogArg) : Except String (MWorld × List Effect) :=
  if !w.mgr.isInitialized then Except.error notInitializedMsg
  else match w.mgr.consoleInterceptor, w.mgr.logStore, w.mgr.overlayRenderer with
    | some _, some st, some r =>
      let entry := mkEntry env level args
      let ra := st.addLog w.console.error entry
      let rr := r.renderLogs ra.1.logs
      Except.ok ({ w with mgr := { w.mgr with logStore := some ra.1, overlayRenderer := some rr.1 } }, rr.2 ++ ra.2)
    | _, _, _ => Except.ok (w, [])

/-- DebugOverlayManager.clearLogs: _ensureInitialized, then store.clearLogs
(whose notification re-renders through the wiring, as in addLog). -/
def Manager.clearLogs (w : MWorld) : Except String (MWorld × List Effect) :=
  if !w.mgr.isInitialized then Except.error notInitializedMsg
  else match w.mgr.logStore with
    | some st =>
      let rc := st.clearLogs w.console.error
      match w.mgr.overlayRenderer with
      | some r =>
        let rr := r.renderLogs rc.1.logs
        Except.ok ({ w with mgr := { w.mgr with logStore := some rc.1, overlayRenderer := some rr.1 } }, rr.2 ++ rc.2)
      | none =>
        Except.ok ({ w with mgr := { w.mgr with logStore := some rc.1 } }, rc.2)
    | none => Except.ok (w, [])

/-- DebugOverlayManager.getOptions: a copy of the options, no
_ensureInitialized check. -/
def Manager.getOptions (w : MWorld) : OverlayOptions :=
  w.mgr.options

/-- DebugOverlayManager.updateOptions: _ensureInitialized; spread-merge the
options; on a theme change re-inject styles; on a maxLogs change propagate
setMaxLogs to the store (where n ≤ 0 throws after the merge already took
effect). -/
def Manager.updateOptions (w : MWorld) (upd : OverlayOptions) :
    MWorld × List Effect × Option String :=
  if !w.mgr.isInitialized then (w, [], some notInitializedMsg)
  else
    let old := w.mgr.options
    let merged := old.merge upd
    let w1 : MWorld := { w with mgr := { w.mgr with options := merged } }
    let w2 : MWorld :=
      if old.theme ≠ merged.theme
      then { w1 with stylesTheme := some (merged.theme.getD Theme.dark) }
      else w1
    if old.maxLogs ≠ merged.maxLogs then
      match w2.mgr.logStore with
      | some st =>
        let rs := st.setMaxLogs w2.console.error (merged.maxLogs.getD 1000)
        ({ w2 with mgr := { w2.mgr with logStore := some rs.1 } }, rs.2.1, rs.2.2)
      | none => (w2, [], none)
    else (w2, [], none)

/-- DebugOverlayManager.getStatistics: _ensureInitialized FIRST — it throws
when uninitialized; the all-zero fallback below is reachable only in the
impossible initialized-but-null-store state. -/
def Manager.getStatistics (w : MWorld) : Except String Statistics :=
  if !w.mgr.isInitialized then Except.error notInitializedMsg
  else match w.mgr.logStore with
    | some st => Except.ok st.getStatistics
    | none => Except.ok ⟨0, 0, 0, 0, 0, 0⟩

/-- DebugOverlayManager.searchLogs: _ensureInitialized, then read-through. -/
def Manager.searchLogs (w : MWorld) (searchText : String)
    (caseSensitive : Bool) : Except String (List LogEntry) :=
  if !w.mgr.isInitialized then Except.error notInitializedMsg
  else match w.mgr.logStore with
    | some st => Except.ok (st.searchLogs searchText caseSensitive)
    | none => Except.ok []

/-- DebugOverlayManager.getLogsByTimeRange: _ensureInitialized, then
read-through. -/
def Manager.getLogsByTimeRange (w : MWorld) (startTime endTime : Int) :
    Except String (List LogEntry) :=
  if !w.mgr.isInitialized then Except.error notInitializedMsg
  else match w.mgr.logStore with
    | some st => Except.ok (st.getLogsByTimeRange startTime endTime)
    | none => Except.ok []

/-- DebugOverlayManager.exportLogs: _ensureInitialized, then the full
buffer (its JSON.stringify serialization is an environment step outside the
model and is applied to exactly this sequence). -/
def Manager.exportLogs (w : MWorld) : Except String (List LogEntry) :=
  if !w.mgr.isInitialized then Except.error notInitializedMsg
  else match w.mgr.logStore with
    | some st => Except.ok st.getAllLogs
    | none => Except.ok []

/-- One state-changing public LogStore operation (the query methods do not
modify state). -/
inductive StoreOp : Type
  | addLog (e : LogEntry)
  | clearLogs
  | setMaxLogs (n : Int)
  | subscribe (l : Listener)
  | unsubscribe (lid : Nat)
  | unsubscribeAll
  | destroy

/-- Execute one public operation, keeping the resulting store (effects and
a possible setMaxLogs exception are dropped; a thrown setMaxLogs leaves the
store as it was). -/
def runOp (curError : ConsoleFn) (st : LogStore) : StoreOp → LogStore
  | StoreOp.addLog e => (st.addLog curError e).1
  | StoreOp.clearLogs => (st.clearLogs curError).1
  | StoreOp.setMaxLogs n => (st.setMaxLogs curError n).1
  | StoreOp.subscribe l => st.subscribe l
  | StoreOp.unsubscribe lid => st.unsubscribe lid
  | StoreOp.unsubscribeAll => st.unsubscribeAll
  | StoreOp.destroy => st.destroy

/-- Execute a sequence of public operations in order. -/
def runOps (curError : ConsoleFn) (st : LogStore) (ops : List StoreOp) :
    LogStore :=
  ops.foldl (runOp curError) st

/-- Execute a sequence of addLog calls in order. -/
def runAddLogs (curError : ConsoleFn) (st : LogStore) (es : List LogEntry) :
    LogStore :=
  es.foldl (fun s e => (s.addLog curError e).1) st

/-- The last k elements of a list, in order. -/
def lastN (k : Nat) (l : List LogEntry) : List LogEntry :=
  l.drop (l.length - k)

/- Concrete fixtures used by witnesses and counterexamples. -/

/-- Sample entry: console.log("alpha"). -/
def entryA : LogEntry := ⟨"id-a", LogLevel.log, [LogArg.jstr "alpha"], 1, none⟩

/-- Sample entry: console.info("beta", 2). -/
def entryB : LogEntry :=
  ⟨"id-b", LogLevel.info, [LogArg.jstr "beta", LogArg.jnum 2], 2, none⟩

/-- Sample entry: console.error("an error happened"). -/
def entryC : LogEntry :=
  ⟨"id-c", LogLevel.error, [LogArg.jstr "an error happened"], 3, some "stack"⟩

/-- A subscriber whose body always throws. -/
def throwingListener : Listener := ⟨0, fun _ => Except.error "listener boom"⟩

/-- A well-behaved subscriber. -/
def okListener : Listener := ⟨1, fun _ => Except.ok ()⟩

/-- An interceptor/capturer callback whose body always throws. -/
def throwingCallback : Callback := ⟨0, fun _ => Except.error "callback boom"⟩

/-- A well-behaved callback. -/
def okCallback : Callback := ⟨1, fun _ => Except.ok ()⟩

/-- A sample capture environment. -/
def envSample : CaptureEnv := ⟨"id-x", 10, some "stack-x"⟩

/-- The global console after an interceptor constructed on the pristine
console has started intercepting: all five slots hold wrappers. -/
def interceptedConsole : ConsoleSlots :=
  ((ConsoleInterceptor.create nativeConsole).startIntercepting nativeConsole).2

/-- A store observed while interception is active, with a throwing
subscriber registered before a well-behaved one. -/
def c5Store : LogStore := ⟨[], 10, [throwingListener, okListener]⟩

/-- The world after a fault-free init on a pristine page. -/
def initializedWorld : MWorld :=
  (Manager.init InitFaults.clean MWorld.fresh OverlayOptions.empty).1

/- Shared lemmas about the notification loops. -/

/-- Every subscriber contributes exactly one group of events, in
registration order: extracting the listener ids from the event stream
recovers the registration list. -/
theorem flatMap_listenerIds (via : ConsoleFn) (logs : List LogEntry)
    (ls : List Listener) :
    (ls.flatMap (listenerOutcome via logs)).filterMap Effect.listenerId
      = ls.map Listener.lid := by
  induction ls with
  | nil => rfl
  | cons l rest ih =>
    cases h : l.run logs <;>
      simp [listenerOutcome, h, Effect.listenerId, ih]

/-- Callback version of flatMap_listenerIds. -/
theorem flatMap_callbackIds (via : ConsoleFn) (entry : LogEntry)
    (cbs : List Callback) :
    (cbs.flatMap (callbackOutcome via entry)).filterMap Effect.callbackId
      = cbs.map Callback.cid := by
  induction cbs with
  | nil => rfl
  | cons cb rest ih =>
    cases h : cb.run entry <;>
      simp [callbackOutcome, h, Effect.callbackId, ih]

/-- The only console invocations a subscriber-notification loop performs
are error notices through the via function. -/
theorem flatMap_listener_consoleInvokes (via : ConsoleFn)
    (logs : List LogEntry) (ls : List Listener) :
    ∀ e ∈ ls.flatMap (listenerOutcome via logs), e.isConsoleInvoke = true →
      e = Effect.consoleInvoke via InvokeTag.errorNotice := by
  intro e he hc
  rcases List.mem_flatMap.mp he with ⟨l, -, hmem⟩
  cases h : l.run logs <;> simp [listenerOutcome, h] at hmem <;>
    first
    | (subst hmem; cases hc)
    | (rcases hmem with hmem | hmem <;> subst hmem <;> first | rfl | cases hc)

/-- Callback version of flatMap_listener_consoleInvokes. -/
theorem flatMap_callback_consoleInvokes (via : ConsoleFn) (entry : LogEntry)
    (cbs : List Callback) :
    ∀ e ∈ cbs.flatMap (callbackOutcome via entry), e.isConsoleInvoke = true →
      e = Effect.consoleInvoke via InvokeTag.errorNotice := by
  intro e he hc
  rcases List.mem_flatMap.mp he with ⟨cb, -, hmem⟩
  cases h : cb.run entry <;> simp [callbackOutcome, h] at hmem <;>
    first
    | (subst hmem; cases hc)
    | (rcases hmem with hmem | hmem <;> subst hmem <;> first | rfl | cases hc)

/-- Every delivery event of a callback-notification loop carries the
notified entry itself. -/
theorem flatMap_callback_delivered (via : ConsoleFn) (entry : LogEntry)
    (cbs : List Callback) :
    ∀ cid e2, Effect.cbDelivered cid e2
        ∈ cbs.flatMap (callbackOutcome via entry) → e2 = entry := by
  intro cid e2 he
  rcases List.mem_flatMap.mp he with ⟨cb, -, hmem⟩
  cases h : cb.run entry <;> simp [callbackOutcome, h] at hmem
  exact hmem.2

/-- Every delivery event of a subscriber-notification loop carries the
notified sequence itself. -/
theorem flatMap_listener_delivered (via : ConsoleFn) (logs : List LogEntry)
    (ls : List Listener) :
    ∀ lid logs2, Effect.lsDelivered lid logs2
        ∈ ls.flatMap (listenerOutcome via logs) → logs2 = logs := by
  intro lid logs2 he
  rcases List.mem_flatMap.mp he with ⟨l, -, hmem⟩
  cases h : l.run logs <;> simp [listenerOutcome, h] at hmem
  exact hmem.2

/- C8 -/

/-- C8: getLogsByLevels returns exactly the sub-sequence of entries whose
level is in the given set, in original insertion order; the empty input set
yields the empty result. -/
theorem claim_C8_filter_correctness (st : LogStore) (levels : List LogLevel) :
    LogStore.getLogsByLevels st [] = [] ∧
    LogStore.getLogsByLevels st levels
      = st.logs.filter (fun e => levels.contains e.level) := by
  constructor
  · rfl
  · unfold LogStore.getLogsByLevels
    cases levels with
    | nil => simp
    | cons a rest => simp

/- C7 -/

/-- C7: searchLogs is case-insensitive by default — with caseSensitive =
false an entry matches exactly when the lowercased join of its args'
string representations contains the lowercased search text — and any
blank or whitespace-only search text returns all stored entries unchanged
(for either case mode). -/
theorem claim_C7_search_case_insensitivity (st : LogStore) (text : String)
    (cs : Bool) :
    (isBlank text = true → st.searchLogs text cs = st.logs) ∧
    (isBlank text = false →
      st.searchLogs text false
        = st.logs.filter fun e =>
            strContains (toLowerStr (logContent e)) (toLowerStr text)) := by
  constructor
  · intro h
    unfold LogStore.searchLogs
    simp [h, LogStore.getAllLogs]
  · intro h
    unfold LogStore.searchLogs
    simp [h]

/-- C7 witness: a blank search returns the whole buffer; the default mode
finds "ERR" inside an entry whose stringified args contain "error". -/
theorem claim_C7_search_case_insensitivity_witness :
    (LogStore.mk [entryA, entryC] 10 []).searchLogs "   " true
        = [entryA, entryC] ∧
    (LogStore.mk [entryA, entryC] 10 []).searchLogs "ERR" false
        = [entryC] := by
  constructor
  · have h := (claim_C7_search_case_insensitivity
      (LogStore.mk [entryA, entryC] 10 []) "   " true).1 (by decide)
    exact h
  · have h := (claim_C7_search_case_insensitivity
      (LogStore.mk [entryA, entryC] 10 []) "ERR" false).2 (by decide)
    rw [h]; decide

/- C2 -/

/-- The console slots after constructing an interceptor on the pristine
console, starting and then stopping interception. -/
def afterStartStop : ConsoleSlots :=
  ((ConsoleInterceptor.create nativeConsole).startIntercepting
      nativeConsole).1.stopIntercepting
    (((ConsoleInterceptor.create nativeConsole).startIntercepting
      nativeConsole).2) |>.2

/-- C2 counterexample: after start + stop, every global console slot holds
the bind-created copy saved by the constructor — a different function
object from the one the slot held before startIntercepting, so the
"same function identity" part of the claim is false. -/
theorem claim_C2_counterexample :
    afterStartStop.log = ConsoleFn.bound nativeConsole.log ∧
    afterStartStop.log ≠ nativeConsole.log ∧
    afterStartStop.info ≠ nativeConsole.info ∧
    afterStartStop.warn ≠ nativeConsole.warn ∧
    afterStartStop.error ≠ nativeConsole.error ∧
    afterStartStop.debug ≠ nativeConsole.debug := by
  decide

/-- C2 amended: after startIntercepting + stopIntercepting the global
slots hold exactly the methods the constructor saved — bind-created copies
of the methods the slots held at construction time, the same saved
references on every cycle, but not the pre-interception function objects
themselves — and stopIntercepting is idempotent (a second call changes
neither the interceptor nor the console). -/
theorem claim_C2_stop_restores_saved_copies (c : ConsoleSlots)
    (ci : ConsoleInterceptor) :
    (((ConsoleInterceptor.create c).startIntercepting c).1.stopIntercepting
        (((ConsoleInterceptor.create c).startIntercepting c).2)).2
      = (ConsoleInterceptor.create c).originalMethods ∧
    (ConsoleInterceptor.create c).originalMethods
      = ⟨ConsoleFn.bound c.log, ConsoleFn.bound c.info, ConsoleFn.bound c.warn,
         ConsoleFn.bound c.error, ConsoleFn.bound c.debug⟩ ∧
    (ci.stopIntercepting c).1.stopIntercepting (ci.stopIntercepting c).2
      = ci.stopIntercepting c := by
  refine ⟨?_, rfl, ?_⟩
  · simp [ConsoleInterceptor.create, ConsoleInterceptor.startIntercepting,
      ConsoleInterceptor.stopIntercepting]
  · by_cases h : ci.isIntercepting <;>
      simp [ConsoleInterceptor.stopIntercepting, h]

/- C1 -/

/-- Popping the head of a nonempty list before an appended singleton. -/
theorem tail_append_single {α : Type} {xs : List α} (h : xs ≠ []) (e : α) :
    (xs ++ [e]).tail = xs.tail ++ [e] := by
  cases xs with
  | nil => exact absurd rfl h
  | cons a as => rfl

/-- lastN has the expected length. -/
theorem lastN_length (k : Nat) (l : List LogEntry) :
    (lastN k l).length = min k l.length := by
  simp [lastN]
  omega

/-- Appending one element to the last k of p and dropping the front equals
the last k of p with the element appended, when p already holds at least k
elements. -/
theorem lastN_push_evict (k : Nat) (hk : 1 ≤ k) (p : List LogEntry)
    (e : LogEntry) (h : k ≤ p.length) :
    (lastN k p ++ [e]).tail = lastN k (p ++ [e]) := by
  have hlen : (lastN k p).length = k := by rw [lastN_length]; omega
  have hne : lastN k p ≠ [] := by
    intro hcontra
    rw [hcontra] at hlen
    simp at hlen
    omega
  rw [tail_append_single hne]
  show (p.drop (p.length - k)).tail ++ [e] = lastN k (p ++ [e])
  rw [List.tail_drop]
  have h1 : (p ++ [e]).length - k = (p.length - k) + 1 := by
    simp
    omega
  rw [lastN, h1, List.drop_append_eq_append_drop]
  have h2 : (p.length - k) + 1 - p.length = 0 := by omega
  rw [h2]
  rfl

/-- One addLog step on a store holding the last k entries of the call
prefix p yields the store holding the last k entries of p ++ [e]. -/
theorem addLog_lastN (curError : ConsoleFn) (M : Int) (hM : 1 ≤ M)
    (p : List LogEntry) (L : List Listener) (e : LogEntry) :
    ((LogStore.mk (lastN M.toNat p) M L).addLog curError e).1
      = LogStore.mk (lastN M.toNat (p ++ [e])) M L := by
  have hk : 1 ≤ M.toNat := by omega
  have hMk : M = (M.toNat : Int) := by omega
  by_cases hple : M.toNat ≤ p.length
  · have hlen : (lastN M.toNat p).length = M.toNat := by
      rw [lastN_length]; omega
    have hcond : M < ((lastN M.toNat p ++ [e]).length : Int) := by
      simp [hlen]
      omega
    simp only [LogStore.addLog, if_pos hcond]
    rw [lastN_push_evict M.toNat hk p e hple]
  · have hlen : (lastN M.toNat p).length = p.length := by
      rw [lastN_length]; omega
    have hcond : ¬ M < ((lastN M.toNat p ++ [e]).length : Int) := by
      simp [hlen]
      omega
    simp only [LogStore.addLog, if_neg hcond]
    have h1 : lastN M.toNat p = p := by
      rw [lastN]
      have : p.length - M.toNat = 0 := by omega
      rw [this]
      rfl
    have h2 : lastN M.toNat (p ++ [e]) = p ++ [e] := by
      rw [lastN]
      have : (p ++ [e]).length - M.toNat = 0 := by simp; omega
      rw [this]
      rfl
    rw [h1, h2]

/-- After any sequence of addLog calls, a store that held the last
M.toNat entries of the already-processed call prefix holds the last
M.toNat entries of the full call sequence. -/
theorem runAddLogs_from (curError : ConsoleFn) (M : Int) (hM : 1 ≤ M)
    (L : List Listener) (es : List LogEntry) :
    ∀ p : List LogEntry,
      runAddLogs curError (LogStore.mk (lastN M.toNat p) M L) es
        = LogStore.mk (lastN M.toNat (p ++ es)) M L := by
  induction es with
  | nil =>
    intro p
    simp [runAddLogs]
  | cons e rest ih =>
    intro p
    have hstep : runAddLogs curError (LogStore.mk (lastN M.toNat p) M L)
        (e :: rest)
      = runAddLogs curError
          (((LogStore.mk (lastN M.toNat p) M L).addLog curError e).1) rest := rfl
    rw [hstep, addLog_lastN curError M hM p L e, ih (p ++ [e])]
    simp

/-- C1: starting from a store constructed with maxLogs = M > 0, after any
sequence of addLog calls the store holds exactly min(N, M) entries, and
they are exactly the entries of the most recent min(N, M) calls, in call
order. -/
theorem claim_C1_bounded_buffer (curError : ConsoleFn) (M : Int)
    (hM : 0 < M) (es : List LogEntry) :
    (runAddLogs curError (LogStore.create M) es).logs
        = es.drop (es.length - M.toNat) ∧
    (runAddLogs curError (LogStore.create M) es).logs.length
        = min es.length M.toNat := by
  have h := runAddLogs_from curError M (by omega) [] es []
  have hnil : lastN M.toNat [] = [] := by simp [lastN]
  have hcreate : LogStore.create M = LogStore.mk (lastN M.toNat []) M [] := by
    rw [hnil]
    rfl
  rw [hcreate, h]
  constructor
  · rfl
  · show (lastN M.toNat ([] ++ es)).length = min es.length M.toNat
    rw [lastN_length]
    simp
    omega

/-- C1 witness: maxLogs = 2, three addLog calls keep the last two entries. -/
theorem claim_C1_bounded_buffer_witness :
    0 < (2 : Int) ∧
    (runAddLogs (ConsoleFn.native LogLevel.error) (LogStore.create 2)
        [entryA, entryB, entryC]).logs = [entryB, entryC] := by
  refine ⟨by decide, ?_⟩
  have h := (claim_C1_bounded_buffer (ConsoleFn.native LogLevel.error) 2
    (by decide) [entryA, entryB, entryC]).1
  rw [h]
  decide

/- C3 -/

/-- C3: setMaxLogs throws the invalid-argument exception for every n ≤ 0,
leaving the bound, the entries and the subscribers unchanged; for n > 0 it
updates the bound and, when the current count exceeds n, keeps exactly the
n most recent entries in order and notifies every subscriber, while when
the count is at most n it evicts nothing and notifies nobody. -/
theorem claim_C3_setMaxLogs_validation (curError : ConsoleFn)
    (st : LogStore) (n : Int) :
    (n ≤ 0 →
      st.setMaxLogs curError n = (st, [], some setMaxLogsErrorMsg)) ∧
    (0 < n →
      (st.setMaxLogs curError n).2.2 = none ∧
      (st.setMaxLogs curError n).1.maxLogs = n ∧
      (st.setMaxLogs curError n).1.listeners = st.listeners ∧
      (n < (st.logs.length : Int) →
        (st.setMaxLogs curError n).1.logs
            = st.logs.drop (st.logs.length - n.toNat) ∧
        ((st.setMaxLogs curError n).2.1).filterMap Effect.listenerId
            = st.listeners.map Listener.lid) ∧
      ((st.logs.length : Int) ≤ n →
        (st.setMaxLogs curError n).1.logs = st.logs ∧
        (st.setMaxLogs curError n).2.1 = [])) := by
  by_cases h0 : n ≤ 0
  · refine ⟨fun _ => ?_, fun hpos => absurd hpos (by omega)⟩
    simp [LogStore.setMaxLogs, h0]
  · refine ⟨fun hneg => absurd hneg h0, fun _ => ?_⟩
    by_cases h1 : n < (st.logs.length : Int)
    · refine ⟨?_, ?_, ?_, fun _ => ⟨?_, ?_⟩, fun habs => absurd habs (by omega)⟩ <;>
        simp [LogStore.setMaxLogs, if_neg h0, if_pos h1,
          LogStore.notifyListeners, flatMap_listenerIds]
    · refine ⟨?_, ?_, ?_, fun habs => absurd habs h1, fun _ => ⟨?_, ?_⟩⟩ <;>
        simp [LogStore.setMaxLogs, if_neg h0, if_neg h1]

/-- C3 witness: n = 0 throws and leaves the store intact; shrinking a
3-entry store to 2 keeps the two most recent entries and notifies the
registered subscriber. -/
theorem claim_C3_setMaxLogs_validation_witness :
    ((LogStore.mk [entryA, entryB, entryC] 10 [okListener]).setMaxLogs
        (ConsoleFn.native LogLevel.error) 0
      = (LogStore.mk [entryA, entryB, entryC] 10 [okListener], [],
         some setMaxLogsErrorMsg)) ∧
    ((LogStore.mk [entryA, entryB, entryC] 10 [okListener]).setMaxLogs
        (ConsoleFn.native LogLevel.error) 2).1.logs = [entryB, entryC] ∧
    (((LogStore.mk [entryA, entryB, entryC] 10 [okListener]).setMaxLogs
        (ConsoleFn.native LogLevel.error) 2).2.1).filterMap Effect.listenerId
      = [1] := by
  refine ⟨?_, ?_, ?_⟩
  · exact (claim_C3_setMaxLogs_validation (ConsoleFn.native LogLevel.error)
      (LogStore.mk [entryA, entryB, entryC] 10 [okListener]) 0).1 (by decide)
  · have h := ((claim_C3_setMaxLogs_validation (ConsoleFn.native LogLevel.error)
      (LogStore.mk [entryA, entryB, entryC] 10 [okListener]) 2).2
        (by decide)).2.2.2.1 (by decide)
    rw [h.1]
    decide
  · have h := ((claim_C3_setMaxLogs_validation (ConsoleFn.native LogLevel.error)
      (LogStore.mk [entryA, entryB, entryC] 10 [okListener]) 2).2
        (by decide)).2.2.2.1 (by decide)
    rw [h.2]
    rfl

/- C10 -/

/-- One public operation preserves the invariant that a store whose bound
is nonpositive holds no entries. -/
theorem runOp_lowcap (curError : ConsoleFn) (st : LogStore) (op : StoreOp)
    (h : st.maxLogs ≤ 0 → st.logs = []) :
    (runOp curError st op).maxLogs ≤ 0 → (runOp curError st op).logs = [] := by
  cases op with
  | addLog e =>
    intro hm
    have hml : (runOp curError st (StoreOp.addLog e)).maxLogs = st.maxLogs := rfl
    rw [hml] at hm
    have hst : st.logs = [] := h hm
    show (LogStore.addLog curError st e).1.logs = []
    simp only [LogStore.addLog, hst, List.nil_append]
    rw [if_pos (by simp; omega)]
    rfl
  | clearLogs => intro _; rfl
  | setMaxLogs n =>
    intro hm
    by_cases h0 : n ≤ 0
    · have heq : runOp curError st (StoreOp.setMaxLogs n) = st := by
        simp [runOp, LogStore.setMaxLogs, h0]
      rw [heq] at hm ⊢
      exact h hm
    · exfalso
      have hml : (runOp curError st (StoreOp.setMaxLogs n)).maxLogs = n := by
        simp only [runOp, LogStore.setMaxLogs, if_neg h0]
        split_ifs <;> rfl
      rw [hml] at hm
      omega
  | subscribe l =>
    intro hm
    have hml : (runOp curError st (StoreOp.subscribe l)).maxLogs = st.maxLogs := by
      simp only [runOp, LogStore.subscribe]
      split_ifs <;> rfl
    have hlg : (runOp curError st (StoreOp.subscribe l)).logs = st.logs := by
      simp only [runOp, LogStore.subscribe]
      split_ifs <;> rfl
    rw [hml] at hm
    rw [hlg]
    exact h hm
  | unsubscribe lid =>
    intro hm
    exact h hm
  | unsubscribeAll =>
    intro hm
    exact h hm
  | destroy => intro _; rfl

/-- The invariant of runOp_lowcap is preserved along any operation
sequence. -/
theorem runOps_lowcap (curError : ConsoleFn) (ops : List StoreOp) :
    ∀ st : LogStore, (st.maxLogs ≤ 0 → st.logs = []) →
      ((runOps curError st ops).maxLogs ≤ 0 →
        (runOps curError st ops).logs = []) := by
  induction ops with
  | nil => intro st h; exact h
  | cons op rest ih =>
    intro st h
    exact ih (runOp curError st op) (runOp_lowcap curError st op h)

/-- C10: the constructor accepts any maxLogs, including zero and negative,
without signalling an error; a store whose bound is nonpositive holds no
entries after every sequence of public operations (while the bound remains
nonpositive — only a successful setMaxLogs can raise it); in that regime
each addLog appends the entry, immediately evicts it, and still notifies
every subscriber with the empty sequence. -/
theorem claim_C10_nonpositive_capacity (curError : ConsoleFn) (m : Int)
    (_hm : m ≤ 0) (ops : List StoreOp) :
    (LogStore.create m).logs = [] ∧
    (LogStore.create m).maxLogs = m ∧
    ((runOps curError (LogStore.create m) ops).maxLogs ≤ 0 →
      (runOps curError (LogStore.create m) ops).logs = []) ∧
    (∀ (st : LogStore) (e : LogEntry), st.maxLogs ≤ 0 → st.logs = [] →
      (st.addLog curError e).1.logs = [] ∧
      ((st.addLog curError e).2).filterMap Effect.listenerId
          = st.listeners.map Listener.lid ∧
      (∀ lid logs2,
        Effect.lsDelivered lid logs2 ∈ (st.addLog curError e).2 →
          logs2 = [])) := by
  refine ⟨rfl, rfl, ?_, ?_⟩
  · exact runOps_lowcap curError ops (LogStore.create m) (fun _ => rfl)
  · intro st e hcap hempty
    have hlogs : (st.addLog curError e).1.logs = [] := by
      simp only [LogStore.addLog, hempty, List.nil_append]
      rw [if_pos (by simp; omega)]
      rfl
    have heff : (st.addLog curError e).2
        = st.listeners.flatMap (listenerOutcome curError []) := by
      show ((st.addLog curError e).1).notifyListeners curError = _
      rw [LogStore.notifyListeners, hlogs]
      rfl
    refine ⟨hlogs, ?_, ?_⟩
    · rw [heff]
      exact flatMap_listenerIds curError [] st.listeners
    · rw [heff]
      exact flatMap_listener_delivered curError [] st.listeners

/-- C10 witness: a store constructed with maxLogs = 0 stays empty across
addLog calls and notifies its subscriber with the empty sequence. -/
theorem claim_C10_nonpositive_capacity_witness :
    (LogStore.create 0).logs = [] ∧
    (runOps (ConsoleFn.native LogLevel.error) (LogStore.create 0)
        [StoreOp.addLog entryA, StoreOp.addLog entryB]).logs = [] ∧
    ((LogStore.mk [] 0 [okListener]).addLog (ConsoleFn.native LogLevel.error)
        entryA).1.logs = [] ∧
    (((LogStore.mk [] 0 [okListener]).addLog (ConsoleFn.native LogLevel.error)
        entryA).2).filterMap Effect.listenerId = [1] := by
  have h := claim_C10_nonpositive_capacity (ConsoleFn.native LogLevel.error) 0
    (by decide) [StoreOp.addLog entryA, StoreOp.addLog entryB]
  have h4 := h.2.2.2 (LogStore.mk [] 0 [okListener]) entryA (by decide) rfl
  refine ⟨h.1, h.2.2.1 (by decide), h4.1, ?_⟩
  rw [h4.2.1]
  rfl

/- C5 -/

/-- C5 counterexample: with interception active the global console.error
slot holds the interceptor's wrapper, and a store subscriber that throws
during an addLog notification is logged by invoking that wrapper — not the
original (non-intercepted) console method, falsifying the claim's
"logged via the original (non-intercepted) console" at this concrete
input (isolation itself does hold: the second subscriber is still
delivered to). -/
theorem claim_C5_counterexample :
    interceptedConsole.error = ConsoleFn.wrapper LogLevel.error ∧
    (c5Store.addLog interceptedConsole.error entryA).2
      = [Effect.lsCaught 0,
         Effect.consoleInvoke (ConsoleFn.wrapper LogLevel.error)
           InvokeTag.errorNotice,
         Effect.lsDelivered 1 [entryA]] ∧
    ConsoleFn.wrapper LogLevel.error ≠ nativeConsole.error ∧
    ConsoleFn.wrapper LogLevel.error
      ≠ (ConsoleInterceptor.create nativeConsole).originalMethods.error := by
  refine ⟨rfl, rfl, by decide, by decide⟩

/-- C5 amended: at every notification site a throwing listener is caught,
every registered listener still receives exactly one invocation in
registration order, and the outcome recorded for a listener depends only on
that listener; a caught failure is logged via the interceptor's saved
original error method at the interceptor site, but via the current global
console.error (curError — the intercepted wrapper while interception is
active) at the store and capturer sites. -/
theorem claim_C5_listener_isolation (curError : ConsoleFn) (st : LogStore)
    (ci : ConsoleInterceptor) (ec : ErrorCapturer) (env : CaptureEnv)
    (level : LogLevel) (args : List LogArg) (entry : LogEntry) :
    ((st.notifyListeners curError).filterMap Effect.listenerId
        = st.listeners.map Listener.lid) ∧
    (∀ pre l post, st.listeners = pre ++ l :: post →
      st.notifyListeners curError
        = pre.flatMap (listenerOutcome curError st.logs)
          ++ listenerOutcome curError st.logs l
          ++ post.flatMap (listenerOutcome curError st.logs)) ∧
    (∀ e ∈ st.notifyListeners curError, e.isConsoleInvoke = true →
      e = Effect.consoleInvoke curError InvokeTag.errorNotice) ∧
    ((ci.handleConsoleCall env level args).filterMap Effect.callbackId
        = ci.callbacks.map Callback.cid) ∧
    (∀ pre cb post, ci.callbacks = pre ++ cb :: post →
      ci.handleConsoleCall env level args
        = pre.flatMap
            (callbackOutcome ci.originalMethods.error (mkEntry env level args))
          ++ callbackOutcome ci.originalMethods.error (mkEntry env level args) cb
          ++ post.flatMap
            (callbackOutcome ci.originalMethods.error (mkEntry env level args))) ∧
    (∀ e ∈ ci.handleConsoleCall env level args, e.isConsoleInvoke = true →
      e = Effect.consoleInvoke ci.originalMethods.error InvokeTag.errorNotice) ∧
    ((ec.notifyCallbacks curError entry).filterMap Effect.callbackId
        = ec.callbacks.map Callback.cid) ∧
    (∀ e ∈ ec.notifyCallbacks curError entry, e.isConsoleInvoke = true →
      e = Effect.consoleInvoke curError InvokeTag.errorNotice) := by
  refine ⟨?_, ?_, ?_, ?_, ?_, ?_, ?_, ?_⟩
  · exact flatMap_listenerIds curError st.logs st.listeners
  · intro pre l post hsplit
    show st.listeners.flatMap (listenerOutcome curError st.logs) = _
    rw [hsplit]
    simp [List.flatMap_append]
  · exact flatMap_listener_consoleInvokes curError st.logs st.listeners
  · exact flatMap_callbackIds ci.originalMethods.error (mkEntry env level args)
      ci.callbacks
  · intro pre cb post hsplit
    show ci.callbacks.flatMap _ = _
    rw [hsplit]
    simp [List.flatMap_append]
  · exact flatMap_callback_consoleInvokes ci.originalMethods.error
      (mkEntry env level args) ci.callbacks
  · exact flatMap_callbackIds curError entry ec.callbacks
  · exact flatMap_callback_consoleInvokes curError entry ec.callbacks

/-- C5 witness: a throwing subscriber registered before a well-behaved one
is caught while the second is still delivered to, and the decomposition of
the event stream around the thrower is exactly the per-listener outcomes. -/
theorem claim_C5_listener_isolation_witness :
    c5Store.notifyListeners (ConsoleFn.wrapper LogLevel.error)
      = listenerOutcome (ConsoleFn.wrapper LogLevel.error) [] throwingListener
        ++ listenerOutcome (ConsoleFn.wrapper LogLevel.error) [] okListener ∧
    c5Store.notifyListeners (ConsoleFn.wrapper LogLevel.error)
      = [Effect.lsCaught 0,
         Effect.consoleInvoke (ConsoleFn.wrapper LogLevel.error)
           InvokeTag.errorNotice,
         Effect.lsDelivered 1 []] := by
  have h := (claim_C5_listener_isolation (ConsoleFn.wrapper LogLevel.error)
    c5Store (ConsoleInterceptor.create nativeConsole) ErrorCapturer.create
    envSample LogLevel.log [] entryA).2.1 [] throwingListener [okListener] rfl
  constructor
  · rw [h]
    rfl
  · rw [h]
    rfl

/- C9 -/

/-- A subscriber-notification loop never forwards a console call. -/
theorem flatMap_listener_noForwardCall (via : ConsoleFn)
    (logs : List LogEntry) (ls : List Listener) :
    ∀ e ∈ ls.flatMap (listenerOutcome via logs), e.isForwardCall = false := by
  intro e he
  rcases List.mem_flatMap.mp he with ⟨l, -, hmem⟩
  cases h : l.run logs <;> simp [listenerOutcome, h] at hmem <;>
    first
    | (subst hmem; rfl)
    | (rcases hmem with hmem | hmem <;> subst hmem <;> rfl)

/-- A callback-notification loop never forwards a console call. -/
theorem flatMap_callback_noForwardCall (via : ConsoleFn) (entry : LogEntry)
    (cbs : List Callback) :
    ∀ e ∈ cbs.flatMap (callbackOutcome via entry), e.isForwardCall = false := by
  intro e he
  rcases List.mem_flatMap.mp he with ⟨cb, -, hmem⟩
  cases h : cb.run entry <;> simp [callbackOutcome, h] at hmem <;>
    first
    | (subst hmem; rfl)
    | (rcases hmem with hmem | hmem <;> subst hmem <;> rfl)

/-- Rendering performs no console invocation at all. -/
theorem renderLogs_noConsole (r : OverlayRenderer) (logs : List LogEntry) :
    ∀ e ∈ (r.renderLogs logs).2,
      e.isForwardCall = false ∧ e.isConsoleInvoke = false := by
  intro e he
  by_cases hc : r.created <;> simp [OverlayRenderer.renderLogs, hc] at he
  subst he
  exact ⟨rfl, rfl⟩

/-- When initialized, Manager.addLog succeeds, leaves the global console
and handler slots and the style element untouched, and its effect trace
contains no forwarding of a console call. -/
theorem manager_addLog_no_forward (env : CaptureEnv) (w : MWorld)
    (level : LogLevel) (args : List LogArg)
    (hinit : w.mgr.isInitialized = true) :
    ∀ w2 effs, Manager.addLog env w level args = Except.ok (w2, effs) →
      w2.console = w.console ∧ w2.handlers = w.handlers ∧
      w2.stylesTheme = w.stylesTheme ∧
      w2.mgr.consoleInterceptor = w.mgr.consoleInterceptor ∧
      ∀ e ∈ effs, e.isForwardCall = false := by
  intro w2 effs heq
  rcases hci : w.mgr.consoleInterceptor with _ | ci2 <;>
    rcases hst : w.mgr.logStore with _ | st2 <;>
      rcases hr : w.mgr.overlayRenderer with _ | r2 <;>
        simp [Manager.addLog, hinit, hci, hst, hr] at heq <;>
          rcases heq with ⟨hw2, heffs⟩ <;> subst hw2 <;> subst heffs
  case some.some.some.intro =>
    refine ⟨rfl, rfl, rfl, rfl, ?_⟩
    intro e he
    rcases List.mem_append.mp he with h1 | h1
    · exact (renderLogs_noConsole r2 _ e h1).1
    · exact flatMap_listener_noForwardCall w.console.error _ _ e h1
  all_goals exact ⟨rfl, rfl, rfl, hci, fun e he => absurd he (List.not_mem_nil e)⟩

/-- C9 counterexample: an interceptor with one registered callback that
throws — manualLog invokes the underlying original console error method
(the saved bound copy) to log the failure, so "never invokes the
underlying (original or current) console method" is false as stated. -/
theorem claim_C9_counterexample :
    Effect.consoleInvoke
        ((ConsoleInterceptor.create nativeConsole).addCallback
          throwingCallback).originalMethods.error InvokeTag.errorNotice
      ∈ ((ConsoleInterceptor.create nativeConsole).addCallback
          throwingCallback).manualLog envSample LogLevel.warn
          [LogArg.jstr "x"] ∧
    ((ConsoleInterceptor.create nativeConsole).addCallback
        throwingCallback).originalMethods.error
      = ConsoleFn.bound (ConsoleFn.native LogLevel.error) := by
  exact ⟨by decide, rfl⟩

/-- C9 amended: manualLog synthesizes the entry from the given level and
args, delivers it exactly once to every registered callback in order, never
forwards the call to any console method, does not touch the global console
slots (it neither reads nor writes them), and invokes a console function
only as the error notice for a throwing callback — through the saved
original error method; Manager.addLog delegates to it, likewise leaving the
global console and handler slots untouched and forwarding nothing. -/
theorem claim_C9_manualLog_no_console (ci : ConsoleInterceptor)
    (env : CaptureEnv) (level : LogLevel) (args : List LogArg) (w : MWorld) :
    ((ci.manualLog env level args).filterMap Effect.callbackId
        = ci.callbacks.map Callback.cid) ∧
    (∀ cid e2, Effect.cbDelivered cid e2 ∈ ci.manualLog env level args →
        e2 = mkEntry env level args) ∧
    (∀ e ∈ ci.manualLog env level args, e.isForwardCall = false) ∧
    (∀ e ∈ ci.manualLog env level args, e.isConsoleInvoke = true →
        e = Effect.consoleInvoke ci.originalMethods.error
              InvokeTag.errorNotice) ∧
    (w.mgr.isInitialized = true →
      ∀ w2 effs, Manager.addLog env w level args = Except.ok (w2, effs) →
        w2.console = w.console ∧ w2.handlers = w.handlers ∧
        w2.stylesTheme = w.stylesTheme ∧
        w2.mgr.consoleInterceptor = w.mgr.consoleInterceptor ∧
        ∀ e ∈ effs, e.isForwardCall = false) := by
  refine ⟨?_, ?_, ?_, ?_, ?_⟩
  · exact flatMap_callbackIds ci.originalMethods.error (mkEntry env level args)
      ci.callbacks
  · exact flatMap_callback_delivered ci.originalMethods.error
      (mkEntry env level args) ci.callbacks
  · exact flatMap_callback_noForwardCall ci.originalMethods.error
      (mkEntry env level args) ci.callbacks
  · exact flatMap_callback_consoleInvokes ci.originalMethods.error
      (mkEntry env level args) ci.callbacks
  · intro hinit
    exact manager_addLog_no_forward env w level args hinit

/-- C9 witness: on the world produced by a fault-free init, addLog
succeeds, leaves the console slots untouched and forwards nothing; the
interceptor-level conjuncts applied to a two-callback interceptor where
the first throws. -/
theorem claim_C9_manualLog_no_console_witness :
    (((ConsoleInterceptor.create nativeConsole).addCallback
        throwingCallback).manualLog envSample LogLevel.warn
        [LogArg.jstr "x"]).filterMap Effect.callbackId = [0] ∧
    (∀ w2 effs,
      Manager.addLog envSample initializedWorld LogLevel.log
          [LogArg.jstr "hello"] = Except.ok (w2, effs) →
        w2.console = initializedWorld.console ∧
        w2.handlers = initializedWorld.handlers ∧
        w2.stylesTheme = initializedWorld.stylesTheme ∧
        w2.mgr.consoleInterceptor = initializedWorld.mgr.consoleInterceptor ∧
        ∀ e ∈ effs, e.isForwardCall = false) := by
  constructor
  · exact (claim_C9_manualLog_no_console
      ((ConsoleInterceptor.create nativeConsole).addCallback throwingCallback)
      envSample LogLevel.warn [LogArg.jstr "x"] MWorld.fresh).1
  · exact (claim_C9_manualLog_no_console
      (ConsoleInterceptor.create nativeConsole) envSample LogLevel.log
      [LogArg.jstr "hello"] initializedWorld).2.2.2.2 rfl

/- C4 -/

/-- C4 counterexample: on a freshly constructed (uninitialized) manager,
getStatistics does NOT return zero counts — _ensureInitialized throws
first (the zero fallback is dead code); moreover destroy and getOptions
are public operations that do not fail either, contradicting "every public
operation other than init fails". -/
theorem claim_C4_counterexample :
    Manager.getStatistics MWorld.fresh = Except.error notInitializedMsg ∧
    Manager.destroy MWorld.fresh = MWorld.fresh ∧
    Manager.getOptions MWorld.fresh = OverlayOptions.empty := by
  exact ⟨rfl, rfl, rfl⟩

/-- C4 amended: in the uninitialized state, every public operation other
than init, destroy and getOptions fails with the not-initialized error —
including getStatistics, whose all-zero fallback is unreachable — while
isVisible returns false without failing, destroy is a safe no-op and
getOptions returns the options copy. -/
theorem claim_C4_uninitialized_behavior (w : MWorld)
    (h : w.mgr.isInitialized = false) (env : CaptureEnv) (level : LogLevel)
    (args : List LogArg) (text : String) (cs : Bool) (t1 t2 : Int)
    (upd : OverlayOptions) :
    Manager.openOverlay w = Except.error notInitializedMsg ∧
    Manager.closeOverlay w = Except.error notInitializedMsg ∧
    Manager.toggleOverlay w = Except.error notInitializedMsg ∧
    Manager.addLog env w level args = Except.error notInitializedMsg ∧
    Manager.clearLogs w = Except.error notInitializedMsg ∧
    Manager.updateOptions w upd = (w, [], some notInitializedMsg) ∧
    Manager.getStatistics w = Except.error notInitializedMsg ∧
    Manager.searchLogs w text cs = Except.error notInitializedMsg ∧
    Manager.getLogsByTimeRange w t1 t2 = Except.error notInitializedMsg ∧
    Manager.exportLogs w = Except.error notInitializedMsg ∧
    Manager.isVisible w = false ∧
    Manager.destroy w = w ∧
    Manager.getOptions w = w.mgr.options := by
  refine ⟨?_, ?_, ?_, ?_, ?_, ?_, ?_, ?_, ?_, ?_, ?_, ?_, ?_⟩ <;>
    simp [Manager.openOverlay, Manager.closeOverlay, Manager.toggleOverlay,
      Manager.addLog, Manager.clearLogs, Manager.updateOptions,
      Manager.getStatistics, Manager.searchLogs, Manager.getLogsByTimeRange,
      Manager.exportLogs, Manager.isVisible, Manager.destroy,
      Manager.getOptions, h]

/-- C4 witness: the amended behavior on the fresh world. -/
theorem claim_C4_uninitialized_behavior_witness :
    Manager.openOverlay MWorld.fresh = Except.error notInitializedMsg ∧
    Manager.getStatistics MWorld.fresh = Except.error notInitializedMsg ∧
    Manager.isVisible MWorld.fresh = false ∧
    Manager.destroy MWorld.fresh = MWorld.fresh ∧
    Manager.getOptions MWorld.fresh = MWorld.fresh.mgr.options := by
  have h := claim_C4_uninitialized_behavior MWorld.fresh rfl envSample
    LogLevel.log [] "" false 0 0 OverlayOptions.empty
  exact ⟨h.1, h.2.2.2.2.2.2.1, h.2.2.2.2.2.2.2.2.2.2.1,
    h.2.2.2.2.2.2.2.2.2.2.2.1, h.2.2.2.2.2.2.2.2.2.2.2.2⟩

/- C6 -/

/-- C6: when any setup step of init throws, init rolls back exactly as
destroy would — all four components destroyed and nulled, styles removed,
state marked uninitialized, the saved global handlers restored and the
console slots either untouched (fault before interception started) or
restored to the constructor-saved copies — and the exception is re-raised
to the caller. -/
theorem claim_C6_init_rollback (w : MWorld) (opts : OverlayOptions)
    (faults : InitFaults)
    (hun : w.mgr.isInitialized = false)
    (hci : w.mgr.consoleInterceptor = none)
    (_hst : w.mgr.logStore = none)
    (_hr : w.mgr.overlayRenderer = none)
    (hec : w.mgr.errorCapturer = none)
    (hf : faults.injectStyles = true ∨ faults.startIntercepting = true ∨
          faults.startCapture = true ∨ faults.createOverlay = true) :
    ((Manager.init faults w opts).2).isSome = true ∧
    (Manager.init faults w opts).1.mgr.consoleInterceptor = none ∧
    (Manager.init faults w opts).1.mgr.logStore = none ∧
    (Manager.init faults w opts).1.mgr.overlayRenderer = none ∧
    (Manager.init faults w opts).1.mgr.errorCapturer = none ∧
    (Manager.init faults w opts).1.mgr.isInitialized = false ∧
    (Manager.init faults w opts).1.stylesTheme = none ∧
    (Manager.init faults w opts).1.handlers = w.handlers ∧
    ((Manager.init faults w opts).1.console = w.console ∨
     (Manager.init faults w opts).1.console
        = (ConsoleInterceptor.create w.console).originalMethods) := by
  obtain ⟨f1, f2, f3, f4⟩ := faults
  cases f1 <;> cases f2 <;> cases f3 <;> cases f4 <;>
    simp_all [Manager.init, Manager.cleanup, ConsoleInterceptor.destroy,
      ConsoleInterceptor.stopIntercepting, ConsoleInterceptor.removeAllCallbacks,
      ErrorCapturer.destroy, ErrorCapturer.stop, ConsoleInterceptor.create,
      ConsoleInterceptor.startIntercepting, wrapperSlots, ErrorCapturer.create,
      ErrorCapturer.start, OverlayRenderer.create, OverlayRenderer.createOverlay,
      LogStore.create]

/-- C6 witness: a fault while starting error capture on a pristine page —
init re-raises, every component is nulled, styles are removed and the
console is left restored to the constructor-saved copies. -/
theorem claim_C6_init_rollback_witness :
    ((Manager.init ⟨false, false, true, false⟩ MWorld.fresh
        OverlayOptions.empty).2).isSome = true ∧
    (Manager.init ⟨false, false, true, false⟩ MWorld.fresh
        OverlayOptions.empty).1.mgr.consoleInterceptor = none ∧
    (Manager.init ⟨false, false, true, false⟩ MWorld.fresh
        OverlayOptions.empty).1.mgr.isInitialized = false ∧
    (Manager.init ⟨false, false, true, false⟩ MWorld.fresh
        OverlayOptions.empty).1.stylesTheme = none ∧
    ((Manager.init ⟨false, false, true, false⟩ MWorld.fresh
        OverlayOptions.empty).1.console = MWorld.fresh.console ∨
     (Manager.init ⟨false, false, true, false⟩ MWorld.fresh
        OverlayOptions.empty).1.console
       = (ConsoleInterceptor.create MWorld.fresh.console).originalMethods) := by
  have h := claim_C6_init_rollback MWorld.fresh OverlayOptions.empty
    ⟨false, false, true, false⟩ rfl rfl rfl rfl rfl
    (Or.inr (Or.inr (Or.inl rfl)))
  exact ⟨h.1, h.2.1, h.2.2.2.2.2.1, h.2.2.2.2.2.2.1, h.2.2.2.2.2.2.2.2⟩

end DebugOverlay
